import Mathlib

/-!
Shallow embedding of the SMS expense-classifier pipeline from `src/App.tsx`
(its-100rabh/Splitkaro-assignment).

The embedded code is the pure classification core: `parseMessageDetails`,
`extractCategory`, `calculateTimeAgo`, the filter+map body of the
`fetchSmsMessages` success callback (called `classify` here), and the
`filteredMessages` view computation.  JavaScript strings are Lean `String`s,
JavaScript numbers that can be `NaN` are `JSNum := Option Int` (with `none`
standing for `NaN`), and `Date.now()` is threaded as an explicit `now : Int`
parameter.
-/

/-- JavaScript truthiness-relevant sum: a number that may be `NaN`.
`none` models `NaN` (e.g. `Date.now() - "garbage"`). -/
def JSNum : Type := Option Int

/-- Build a `JSNum` from an ordinary integer. -/
def JSNum.int (n : Int) : JSNum := some n

/-- The `NaN` value. -/
def JSNum.nan : JSNum := none

instance : DecidableEq JSNum := inferInstanceAs (DecidableEq (Option Int))

/-- JS subtraction: `NaN` is absorbing. -/
def jsub : JSNum → JSNum → JSNum
  | some a, some b => some (a - b)
  | _, _ => none

/-- Models `Math.floor(x / k)` for integer `x` and positive integer literal `k`:
floor division, with `NaN` propagated. -/
def jfdivFloor (x : JSNum) (k : Int) : JSNum :=
  match x with
  | some a => some (Int.fdiv a k)
  | none => none

/-- JS `x < k` comparison: any comparison with `NaN` is `false`. -/
def jlt (x : JSNum) (k : Int) : Bool :=
  match x with
  | some a => decide (a < k)
  | none => false

/-- JS template-literal stringification of a (possibly `NaN`) number. -/
def jsNumToString : JSNum → String
  | some a => toString a
  | none => "NaN"

/-- Character-level prefix test: does `hay` start with `needle`? -/
def prefixMatch : List Char → List Char → Bool
  | [], _ => true
  | _ :: _, [] => false
  | n :: ns, h :: hs => n == h && prefixMatch ns hs

/-- Models JS `String.prototype.includes` on character lists: `needle`
occurs contiguously in `hay`. -/
def listIncludes (hay needle : List Char) : Bool :=
  match hay with
  | [] => prefixMatch needle []
  | c :: t => prefixMatch needle (c :: t) || listIncludes t needle

/-- Models JS `hay.includes(needle)`. -/
def strIncludes (hay needle : String) : Bool :=
  listIncludes hay.data needle.data

/-- Models JS `String.prototype.toLowerCase` (the bodies involved are ASCII,
where JS and `Char.toLower` agree). -/
def jsToLower (s : String) : String :=
  String.mk (s.data.map Char.toLower)

/-- Case-insensitive character comparison, as under the regex `i` flag. -/
def ciEq (c d : Char) : Bool := c.toLower == d.toLower

/-- The JS `\s` character class (ECMAScript WhiteSpace ∪ LineTerminator). -/
def jsWhitespaceChar (c : Char) : Bool :=
  c == ' ' || ( '\t' ≤ c && c ≤ '\u000D') || c == '\u00A0' || c == '\u1680' ||
  ( '\u2000' ≤ c && c ≤ '\u200A') || c == '\u2028' || c == '\u2029' ||
  c == '\u202F' || c == '\u205F' || c == '\u3000' || c == '\uFEFF'

/-- Maximal run of decimal digits (`\d+` / `\d*` greedy): returns the
consumed digits and the rest. -/
def takeDigits : List Char → List Char × List Char
  | c :: rest =>
    if c.isDigit then
      let (d, r) := takeDigits rest
      (c :: d, r)
    else ([], c :: rest)
  | [] => ([], [])

/-- Greedy `(?:,\d{3})*`: consume comma-plus-three-digit groups. -/
def commaGroups : List Char → List Char × List Char
  | ',' :: a :: b :: c :: rest =>
    if a.isDigit && b.isDigit && c.isDigit then
      let (g, r) := commaGroups rest
      ( ',' :: a :: b :: c :: g, r)
    else ([], ',' :: a :: b :: c :: rest)
  | cs => ([], cs)

/-- Greedy `(?:\.\d+)?`: an optional dot followed by at least one digit. -/
def decimalPart : List Char → List Char × List Char
  | '.' :: rest =>
    let (d, r) := takeDigits rest
    if d.isEmpty then ([], '.' :: rest) else ( '.' :: d, r)
  | cs => ([], cs)

/-- The capture group `(\d+(?:,\d{3})*(?:\.\d+)?)` at the current position:
`none` when no digit starts here. -/
def numberCore (l : List Char) : Option (List Char) :=
  let (d, r1) := takeDigits l
  if d.isEmpty then none
  else
    let (g, r2) := commaGroups r1
    let (f, _) := decimalPart r2
    some (d ++ g ++ f)

/-- `\s?` followed by the capture group, with the regex engine's backtracking:
try consuming one whitespace character first, then retry without. -/
def numberAfterWs (cs : List Char) : Option (List Char) :=
  match cs with
  | c :: rest =>
    if jsWhitespaceChar c then
      match numberCore rest with
      | some cap => some cap
      | none => numberCore (c :: rest)
    else numberCore (c :: rest)
  | [] => numberCore []

/-- The `Rs\.?` alternative (case-insensitive on the letters), with greedy
optional dot and its backtracking. -/
def matchRs (cs : List Char) : Option (List Char) :=
  match cs with
  | r :: s :: rest =>
    if ciEq r 'R' && ciEq s 'S' then
      match rest with
      | '.' :: rest2 =>
        (match numberAfterWs rest2 with
         | some cap => some cap
         | none => numberAfterWs rest)
      | _ => numberAfterWs rest
    else none
  | _ => none

/-- Attempt the whole pattern `(?:INR|Rs\.?)\s?(\d+(?:,\d{3})*(?:\.\d+)?)`
anchored at the current position, returning the capture group. -/
def matchAmountAt (cs : List Char) : Option (List Char) :=
  match cs with
  | i :: n :: r :: rest =>
    if ciEq i 'I' && ciEq n 'N' && ciEq r 'R' then numberAfterWs rest
    else matchRs (i :: n :: r :: rest)
  | _ => matchRs cs

/-- Leftmost match of the amount regex over the whole body, as JS
`String.prototype.match` without the `g` flag: the earliest start position
at which the pattern matches wins. -/
def execAmountRegex : List Char → Option (List Char)
  | [] => none
  | c :: rest =>
    match matchAmountAt (c :: rest) with
    | some cap => some cap
    | none => execAmountRegex rest

/-- Lines 70-71 of `App.tsx`:
`const amountMatch = message.body.match(/(?:INR|Rs\.?)\s?(\d+(?:,\d{3})*(?:\.\d+)?)/i);`
`const amount = amountMatch ? amountMatch[1] : 'N/A';` -/
def amountOf (body : String) : String :=
  match execAmountRegex body.data with
  | some cap => String.mk cap
  | none => "N/A"

/-- The `'debited' | 'credited'` string union of the `SmsMessage.type` field. -/
inductive Direction where
  | debited
  | credited
deriving DecidableEq, Repr

/-- `RawMessage`: the record shape delivered by the SMS provider
(`JSON.parse(smsList)` elements).  `address` may be absent and `date_sent`
may be unparseable (then `NaN` under arithmetic), so those are optional. -/
structure RawMessage where
  _id : String
  body : String
  address : Option String
  date_sent : JSNum
deriving DecidableEq

/-- The `SmsMessage` interface of `App.tsx` (the spec's ClassifiedMessage). -/
structure SmsMessage where
  id : String
  body : String
  sender : String
  amount : String
  date : String
  timeAgo : String
  type : Direction
  category : Option String
deriving DecidableEq, Repr

/-- Models the JS builtin `new Date(x).toLocaleDateString()`: on `NaN` it is
the fixed string `"Invalid Date"`; on a valid timestamp it is some
locale-dependent rendering of the calendar date, abstracted here as the
decimal timestamp (no claim depends on the valid-date rendering). -/
def toLocaleDateString : JSNum → String
  | none => "Invalid Date"
  | some t => toString t

/-- Lines 88-93 of `App.tsx`: `extractCategory`. -/
def extractCategory (messageBody : String) : Option String :=
  if strIncludes (jsToLower messageBody) "grocery" then some "Grocery"
  else if strIncludes (jsToLower messageBody) "dining" then some "Dining"
  else if strIncludes (jsToLower messageBody) "shopping" then some "Shopping"
  else none

/-- Lines 95-101 of `App.tsx`: `calculateTimeAgo`, with `Date.now()` passed
explicitly as `now`. -/
def calculateTimeAgo (now : Int) (dateSent : JSNum) : String :=
  let diffInMinutes := jfdivFloor (jsub (some now) dateSent) (1000 * 60)
  if jlt diffInMinutes 60 then jsNumToString diffInMinutes ++ " minute(s) ago"
  else
    let diffInHours := jfdivFloor diffInMinutes 60
    if jlt diffInHours 24 then jsNumToString diffInHours ++ " hour(s) ago"
    else jsNumToString (jfdivFloor diffInHours 24) ++ " day(s) ago"

/-- Lines 69-86 of `App.tsx`: `parseMessageDetails`. -/
def parseMessageDetails (now : Int) (message : RawMessage) : SmsMessage :=
  let amount := amountOf message.body
  let type := if strIncludes (jsToLower message.body) "debited"
              then Direction.debited else Direction.credited
  let category := extractCategory message.body
  let timeAgo := calculateTimeAgo now message.date_sent
  { id := message._id
    body := message.body
    sender := match message.address with
              | some a => if a = "" then "Unknown" else a
              | none => "Unknown"
    amount := amount
    date := toLocaleDateString message.date_sent
    timeAgo := timeAgo
    type := type
    category := category }

/-- The retention predicate of line 114:
`msg.body.includes('debited') || msg.body.includes('credited')`. -/
def keepMessage (msg : RawMessage) : Bool :=
  strIncludes msg.body "debited" || strIncludes msg.body "credited"

/-- Lines 113-116 of `App.tsx`: the pure core of the `fetchSmsMessages`
success callback — filter then map (the spec's `classify`). -/
def classify (now : Int) (msgs : List RawMessage) : List SmsMessage :=
  (msgs.filter keepMessage).map (parseMessageDetails now)

/-- The `'all' | 'credited' | 'debited'` filter state. -/
inductive FilterKind where
  | all
  | credited
  | debited
deriving DecidableEq, Repr

/-- The `msg.type === filter` comparison (a direction only equals the
like-named filter value; it never equals `'all'`). -/
def dirMatches : Direction → FilterKind → Bool
  | Direction.debited, FilterKind.debited => true
  | Direction.credited, FilterKind.credited => true
  | _, _ => false

/-- Lines 124-129 of `App.tsx`: the `filteredMessages` view (the spec's
`applyView`): direction filter, then case-insensitive search over body and
sender. -/
def filteredMessages (messages : List SmsMessage) (filter : FilterKind)
    (searchQuery : String) : List SmsMessage :=
  (messages.filter (fun msg =>
      if filter = FilterKind.all then true else dirMatches msg.type filter)).filter
    (fun msg =>
      let query := jsToLower searchQuery
      strIncludes (jsToLower msg.body) query || strIncludes (jsToLower msg.sender) query)

/-- The component state touched by `fetchSmsMessages` callbacks. -/
structure AppState where
  messages : List SmsMessage
  loading : Bool
deriving DecidableEq

/-- Lines 107-122 of `App.tsx`: the effect of one completed `SmsAndroid.list`
call on the component state.  The failure callback only logs and clears
`loading`; the success callback replaces `messages` wholesale with the
classification of the fetched list. -/
def fetchResultStep (now : Int) (s : AppState)
    (result : Except String (List RawMessage)) : AppState :=
  match result with
  | Except.error _ => { s with loading := false }
  | Except.ok smsList => { messages := classify now smsList, loading := false }

/-! ## Basic facts about the embedded string primitives -/

theorem prefixMatch_nil (l : List Char) : prefixMatch [] l = true := rfl

theorem strIncludes_empty_needle (s : String) : strIncludes s "" = true := by
  cases s with
  | mk data => cases data <;> simp [strIncludes, listIncludes, prefixMatch]

theorem parseMessageDetails_body (now : Int) (r : RawMessage) :
    (parseMessageDetails now r).body = r.body := rfl

theorem parseMessageDetails_type (now : Int) (r : RawMessage) :
    (parseMessageDetails now r).type =
      if strIncludes (jsToLower r.body) "debited"
      then Direction.debited else Direction.credited := rfl

/-! ## Claim theorems -/

/-- C9: on fetch failure the prior classified-message collection is left
unchanged — the failure callback only clears the loading flag, performs no
update of `messages`, and (being a total function) raises nothing. -/
theorem fetch_failure_keeps_messages (now : Int) (s : AppState) (e : String) :
    (fetchResultStep now s (Except.error e)).messages = s.messages ∧
    (fetchResultStep now s (Except.error e)).loading = false :=
  ⟨rfl, rfl⟩

/-- C8: classification degrades gracefully on malformed records: a missing
`address` yields the sentinel sender `"Unknown"`, and an unparseable
`date_sent` (`NaN`) yields the fixed degraded strings `"Invalid Date"` and
`"NaN day(s) ago"`; `parseMessageDetails` is a total function, so no
exception propagates. -/
theorem parse_malformed_degrades (now : Int) (r : RawMessage) :
    (r.address = none → (parseMessageDetails now r).sender = "Unknown") ∧
    (r.date_sent = JSNum.nan →
      (parseMessageDetails now r).date = "Invalid Date" ∧
      (parseMessageDetails now r).timeAgo = "NaN day(s) ago") := by
  constructor
  · intro h
    simp [parseMessageDetails, h]
  · intro h
    cases r with
    | mk i b a d =>
      cases h
      exact ⟨rfl, rfl⟩

/-- Closed instance of `parse_malformed_degrades` at a concrete malformed
record. -/
theorem parse_malformed_degrades_witness :
    (parseMessageDetails 0 ⟨"i", "x", none, JSNum.nan⟩).sender = "Unknown" ∧
    (parseMessageDetails 0 ⟨"i", "x", none, JSNum.nan⟩).date = "Invalid Date" ∧
    (parseMessageDetails 0 ⟨"i", "x", none, JSNum.nan⟩).timeAgo = "NaN day(s) ago" :=
  ⟨(parse_malformed_degrades 0 _).1 rfl,
   ((parse_malformed_degrades 0 _).2 rfl).1,
   ((parse_malformed_degrades 0 _).2 rfl).2⟩

theorem fdiv_sixtyk_sixty (a : Int) :
    (a.fdiv 60000).fdiv 60 = a.fdiv 3600000 := by
  rw [Int.fdiv_eq_ediv _ (by norm_num : (0:Int) ≤ 60000),
      Int.fdiv_eq_ediv _ (by norm_num : (0:Int) ≤ 60),
      Int.fdiv_eq_ediv _ (by norm_num : (0:Int) ≤ 3600000)]
  omega

theorem fdiv_hours_days (a : Int) :
    (a.fdiv 3600000).fdiv 24 = a.fdiv 86400000 := by
  rw [Int.fdiv_eq_ediv _ (by norm_num : (0:Int) ≤ 3600000),
      Int.fdiv_eq_ediv _ (by norm_num : (0:Int) ≤ 24),
      Int.fdiv_eq_ediv _ (by norm_num : (0:Int) ≤ 86400000)]
  omega

theorem calculateTimeAgo_some (now d : Int) :
    calculateTimeAgo now (JSNum.int d) =
      if (now - d).fdiv 60000 < 60 then
        toString ((now - d).fdiv 60000) ++ " minute(s) ago"
      else if (now - d).fdiv 3600000 < 24 then
        toString ((now - d).fdiv 3600000) ++ " hour(s) ago"
      else
        toString ((now - d).fdiv 86400000) ++ " day(s) ago" := by
  have h1 := fdiv_sixtyk_sixty (now - d)
  have h2 := fdiv_hours_days (now - d)
  simp only [calculateTimeAgo, JSNum.int, jsub, jfdivFloor, jlt, jsNumToString,
    decide_eq_true_eq]
  norm_num [h1, h2]

/-- C7: `relativeAge` buckets elapsed time since now: if the floored
elapsed-minute count is below 60 the result is `"<n> minute(s) ago"`,
otherwise if the floored elapsed-hour count is below 24 it is
`"<n> hour(s) ago"`, otherwise `"<n> day(s) ago"`, with each `<n>` the
integer floor of the respective unit count; there is no further bucket. -/
theorem calculateTimeAgo_buckets (now d : Int) :
    calculateTimeAgo now (JSNum.int d) =
      if (now - d).fdiv 60000 < 60 then
        toString ((now - d).fdiv 60000) ++ " minute(s) ago"
      else if (now - d).fdiv 3600000 < 24 then
        toString ((now - d).fdiv 3600000) ++ " hour(s) ago"
      else
        toString ((now - d).fdiv 86400000) ++ " day(s) ago" :=
  calculateTimeAgo_some now d

/-- C10: classification preserves input order — `classify` equals the
recursion that walks the input left to right, keeps exactly the messages
passing the retention filter, and maps each in place. -/
def classifySpec (now : Int) : List RawMessage → List SmsMessage
  | [] => []
  | r :: rs =>
    if keepMessage r then parseMessageDetails now r :: classifySpec now rs
    else classifySpec now rs

/-- C10: the classify output is exactly the subsequence of inputs passing
the retention filter, each mapped to its classified record, in the same
relative order as the input sequence. -/
theorem classify_eq_classifySpec (now : Int) (msgs : List RawMessage) :
    classify now msgs = classifySpec now msgs := by
  induction msgs with
  | nil => rfl
  | cons r rs ih =>
    cases h : keepMessage r <;>
      simp [classify, classifySpec, List.filter_cons, h] <;>
      simpa [classify] using ih

/-- C1: the single-element batch `[{address: "BANK",
body: "Rs.500 debited from a/c", date_sent: now - 120000}]` classifies to
exactly one record with amount `"500"`, direction debited, relativeAge
`"2 minute(s) ago"`, and no category. -/
theorem classify_scenario_single_debit (now : Int) :
    ∃ m : SmsMessage,
      classify now
        [⟨"1", "Rs.500 debited from a/c", some "BANK", JSNum.int (now - 120000)⟩]
        = [m] ∧
      m.amount = "500" ∧ m.type = Direction.debited ∧
      m.timeAgo = "2 minute(s) ago" ∧ m.category = none ∧ m.sender = "BANK" := by
  refine ⟨parseMessageDetails now
    ⟨"1", "Rs.500 debited from a/c", some "BANK", JSNum.int (now - 120000)⟩,
    rfl, rfl, rfl, ?_, rfl, rfl⟩
  show calculateTimeAgo now (JSNum.int (now - 120000)) = "2 minute(s) ago"
  rw [calculateTimeAgo_some]
  have h : now - (now - 120000) = 120000 := by omega
  rw [h]
  decide

/-- C2: classify never adds records; a message whose body lacks the
case-sensitive substrings `"debited"` and `"credited"` is absent from the
output; and a body with only the capitalized `"Debited"` is dropped by the
filter even though direction classification would have marked it debited. -/
theorem classify_filter_sound (now : Int) (msgs : List RawMessage) :
    (classify now msgs).length ≤ msgs.length ∧
    (∀ r, r ∈ msgs → strIncludes r.body "debited" = false →
      strIncludes r.body "credited" = false →
      parseMessageDetails now r ∉ classify now msgs) ∧
    classify now [⟨"7", "Rs.10 Debited from a/c", some "BANK", JSNum.int 0⟩] = [] ∧
    (parseMessageDetails now
      ⟨"7", "Rs.10 Debited from a/c", some "BANK", JSNum.int 0⟩).type
      = Direction.debited := by
  refine ⟨?_, ?_, rfl, rfl⟩
  · calc (classify now msgs).length
        = (msgs.filter keepMessage).length := by simp [classify]
      _ ≤ msgs.length := List.length_filter_le _ _
  · intro r _ hd hc hmem
    rcases List.mem_map.1 hmem with ⟨r', hr', heq⟩
    have hkeep : keepMessage r' = true := (List.mem_filter.1 hr').2
    have hbody : r'.body = r.body := by
      have := congrArg SmsMessage.body heq
      simpa [parseMessageDetails_body] using this
    rw [keepMessage, hbody, hd, hc] at hkeep
    exact Bool.false_ne_true hkeep

/-- Closed instance of `classify_filter_sound`: a keyword-free message is
absent from the classification of its own batch. -/
theorem classify_filter_sound_witness :
    parseMessageDetails 0 ⟨"a", "hello", none, JSNum.int 0⟩ ∉
      classify 0 [⟨"a", "hello", none, JSNum.int 0⟩] :=
  (classify_filter_sound 0 [⟨"a", "hello", none, JSNum.int 0⟩]).2.1
    _ (List.mem_singleton.2 rfl) rfl rfl

/-- C3: every retained message is classified debited exactly when its
lower-cased body contains `"debited"`, and credited otherwise — even when
`"credited"` is absent too, since there is no independent credited check. -/
theorem classify_direction_of_body (now : Int) (msgs : List RawMessage)
    (m : SmsMessage) (hm : m ∈ classify now msgs) :
    m.type = if strIncludes (jsToLower m.body) "debited"
             then Direction.debited else Direction.credited := by
  rcases List.mem_map.1 hm with ⟨r, _, heq⟩
  rw [← heq, parseMessageDetails_body, parseMessageDetails_type]

/-- Closed instance of `classify_direction_of_body` on a one-message batch
whose body contains neither keyword in lower case after retention
(`"credited"` absent, `"debited"` present). -/
theorem classify_direction_of_body_witness :
    (parseMessageDetails 0 ⟨"1", "Rs.5 debited", some "B", JSNum.int 0⟩).type =
      if strIncludes
          (jsToLower (parseMessageDetails 0
            ⟨"1", "Rs.5 debited", some "B", JSNum.int 0⟩).body) "debited"
      then Direction.debited else Direction.credited :=
  classify_direction_of_body 0 [⟨"1", "Rs.5 debited", some "B", JSNum.int 0⟩]
    _ (by simp [classify, keepMessage, List.filter_cons, strIncludes, listIncludes, prefixMatch])

/-- C5: category extraction checks `"grocery"`, `"dining"`, `"shopping"`
in that fixed order on the lower-cased body and the first match wins: a
body containing both `"grocery"` and `"dining"` yields Grocery, and when
none of the three keywords occurs the category is absent. -/
theorem extractCategory_precedence (s : String) :
    (strIncludes (jsToLower s) "grocery" = true →
      strIncludes (jsToLower s) "dining" = true →
      extractCategory s = some "Grocery") ∧
    (strIncludes (jsToLower s) "grocery" = false →
      strIncludes (jsToLower s) "dining" = false →
      strIncludes (jsToLower s) "shopping" = false →
      extractCategory s = none) := by
  constructor
  · intro hg _
    simp [extractCategory, hg]
  · intro hg hd hs
    simp [extractCategory, hg, hd, hs]

/-- Closed instances of `extractCategory_precedence`: a body with both
`"grocery"` and `"dining"` maps to Grocery, and a keyword-free body to no
category. -/
theorem extractCategory_precedence_witness :
    extractCategory "grocery then dining" = some "Grocery" ∧
    extractCategory "nothing here" = none :=
  ⟨(extractCategory_precedence "grocery then dining").1 (by decide) (by decide),
   (extractCategory_precedence "nothing here").2 (by decide) (by decide) (by decide)⟩

/-- C6: `filteredMessages` returns exactly the messages satisfying both the
direction predicate and the case-insensitive search predicate, preserves
the original order (its output is a sublist of the input), and with
direction filter debited and empty search text returns exactly the debited
subset. -/
theorem filteredMessages_applyView (msgs : List SmsMessage) (f : FilterKind)
    (q : String) :
    filteredMessages msgs f q =
      msgs.filter (fun m =>
        (if f = FilterKind.all then true else dirMatches m.type f) &&
        (strIncludes (jsToLower m.body) (jsToLower q) ||
         strIncludes (jsToLower m.sender) (jsToLower q))) ∧
    List.Sublist (filteredMessages msgs f q) msgs ∧
    filteredMessages msgs FilterKind.debited "" =
      msgs.filter (fun m => dirMatches m.type FilterKind.debited) := by
  have hmain : ∀ (f' : FilterKind) (q' : String),
      filteredMessages msgs f' q' =
        msgs.filter (fun m =>
          (if f' = FilterKind.all then true else dirMatches m.type f') &&
          (strIncludes (jsToLower m.body) (jsToLower q') ||
           strIncludes (jsToLower m.sender) (jsToLower q'))) := by
    intro f' q'
    rw [filteredMessages, List.filter_filter]
    exact List.filter_congr fun m _ => Bool.and_comm _ _
  refine ⟨hmain f q, ?_, ?_⟩
  · rw [hmain f q]; exact List.filter_sublist _
  · rw [hmain FilterKind.debited ""]
    refine List.filter_congr fun m _ => ?_
    simp [strIncludes_empty_needle, jsToLower]

theorem matchRs_none_of_no_marker {cs : List Char}
    (h : prefixMatch ( 'r' :: 's' :: []) (cs.map Char.toLower) = false) :
    matchRs cs = none := by
  match cs with
  | [] => rfl
  | [_] => rfl
  | r :: s :: rest =>
    simp only [List.map_cons, prefixMatch, prefixMatch_nil, Bool.and_true,
      Bool.and_eq_false_iff, beq_eq_false_iff_ne, ne_eq] at h
    have hcond : (ciEq r 'R' && ciEq s 'S') = false := by
      rw [ciEq, ciEq, show Char.toLower 'R' = 'r' from by decide,
        show Char.toLower 'S' = 's' from by decide]
      rcases h with h | h
      · exact Bool.and_eq_false_iff.2 (Or.inl (beq_eq_false_iff_ne.2 fun he => h he.symm))
      · exact Bool.and_eq_false_iff.2 (Or.inr (beq_eq_false_iff_ne.2 fun he => h he.symm))
    simp [matchRs, hcond]

theorem matchAmountAt_none_of_no_marker {cs : List Char}
    (hinr : prefixMatch ( 'i' :: 'n' :: 'r' :: []) (cs.map Char.toLower) = false)
    (hrs : prefixMatch ( 'r' :: 's' :: []) (cs.map Char.toLower) = false) :
    matchAmountAt cs = none := by
  match cs with
  | [] => rfl
  | [a] => exact matchRs_none_of_no_marker hrs
  | [a, b] => exact matchRs_none_of_no_marker hrs
  | i :: n :: r :: rest =>
    simp only [List.map_cons, prefixMatch, prefixMatch_nil, Bool.and_true,
      Bool.and_eq_false_iff, beq_eq_false_iff_ne, ne_eq] at hinr
    have hcond : (ciEq i 'I' && ciEq n 'N' && ciEq r 'R') = false := by
      rw [ciEq, ciEq, ciEq, show Char.toLower 'I' = 'i' from by decide,
        show Char.toLower 'N' = 'n' from by decide,
        show Char.toLower 'R' = 'r' from by decide]
      rcases hinr with h | h | h
      · exact Bool.and_eq_false_iff.2 (Or.inl (Bool.and_eq_false_iff.2
          (Or.inl (beq_eq_false_iff_ne.2 fun he => h he.symm))))
      · exact Bool.and_eq_false_iff.2 (Or.inl (Bool.and_eq_false_iff.2
          (Or.inr (beq_eq_false_iff_ne.2 fun he => h he.symm))))
      · exact Bool.and_eq_false_iff.2 (Or.inr (beq_eq_false_iff_ne.2 fun he => h he.symm))
    rw [matchAmountAt]
    simp only [hcond, Bool.false_eq_true, if_false]
    exact matchRs_none_of_no_marker hrs

theorem execAmountRegex_none_of_no_marker {cs : List Char}
    (hinr : listIncludes (cs.map Char.toLower) ( 'i' :: 'n' :: 'r' :: []) = false)
    (hrs : listIncludes (cs.map Char.toLower) ( 'r' :: 's' :: []) = false) :
    execAmountRegex cs = none := by
  induction cs with
  | nil => rfl
  | cons c rest ih =>
    rw [List.map_cons, listIncludes, Bool.or_eq_false_iff] at hinr hrs
    rw [execAmountRegex,
      matchAmountAt_none_of_no_marker
        (by rw [List.map_cons]; exact hinr.1) (by rw [List.map_cons]; exact hrs.1)]
    exact ih hinr.2 hrs.2

/-- C4: the amount is the first capture of the pattern
`(?:INR|Rs\.?)\s?(\d+(?:,\d{3})*(?:\.\d+)?)` (case-insensitive currency
marker, optional period and whitespace, comma-grouped thousands, optional
decimal fraction, captured with its commas): `"Rs. 1,234.50 debited"`
yields `"1,234.50"`, and any body whose lower-cased text contains neither
`"inr"` nor `"rs"` (no currency marker) yields the sentinel `"N/A"`. -/
theorem amount_extraction_spec (body : String)
    (hinr : strIncludes (jsToLower body) "inr" = false)
    (hrs : strIncludes (jsToLower body) "rs" = false) :
    amountOf body = "N/A" ∧ amountOf "Rs. 1,234.50 debited" = "1,234.50" := by
  refine ⟨?_, by decide⟩
  have hnone : execAmountRegex body.data = none :=
    execAmountRegex_none_of_no_marker hinr hrs
  rw [amountOf, hnone]

/-- Closed instance of `amount_extraction_spec` at a marker-free body. -/
theorem amount_extraction_spec_witness :
    amountOf "no currency here 500" = "N/A" :=
  (amount_extraction_spec "no currency here 500" (by decide) (by decide)).1
